import Mathlib

/-!
# Verification of the wingman Claude CLI supervisor core

Shallow embedding of `src-tauri/src/claude/parser.rs` (the NDJSON event
parser) and `src-tauri/src/claude/process.rs` (the `CliManager` session
registry and the `stream_output` streaming loop), together with the parts
of `error.rs`, `events/mod.rs` and `state/app_state.rs` they depend on.

I/O outcomes (spawn success, stdin write/flush success) are passed in as
explicit oracle parameters; event emission is modelled as an emitted trace;
the nondeterministic uuid-based message ids are modelled by a caller-supplied
generator function.
-/

namespace Wingman

/-- JSON values, embedding `serde_json::Value`.  Numbers are modelled as
integers; no claim depends on the numeric representation, only on whether a
value is a string. -/
inductive Json where
  | null
  | bool (b : Bool)
  | num (n : Int)
  | str (s : String)
  | arr (xs : List Json)
  | obj (fields : List (String × Json))
deriving Repr

/-- Key lookup in an object's field list (first match wins). -/
def lookupField : List (String × Json) → String → Option Json
  | [], _ => none
  | (k, v) :: rest, key => if k = key then some v else lookupField rest key

/-- Field lookup on a JSON value, embedding `Value::get(key)`:
`None` unless the value is an object containing the key. -/
def Json.get : Json → String → Option Json
  | Json.obj fields, key => lookupField fields key
  | _, _ => none

/-- Embedding `Value::as_str`: the underlying string when the value is a
string, `None` otherwise. -/
def Json.asStr : Json → Option String
  | Json.str s => some s
  | _ => none

/-- Error codes from `error.rs` (the ones the supervisor core uses). -/
inductive ErrorCode where
  | claudeCliNotFound
  | claudeCliError
deriving Repr, DecidableEq

/-- `AppError` from `error.rs`: an error code plus a message.  The dynamic
parts of Rust messages (`format!("...: {}", e)`) are modelled by the static
prefix alone. -/
structure AppError where
  code : ErrorCode
  message : String
deriving Repr, DecidableEq

/-- `AppError::claude_cli_error(message)`. -/
def AppError.claude_cli_error (message : String) : AppError :=
  ⟨ErrorCode.claudeCliError, message⟩

/-- `AppError::claude_cli_not_found()`. -/
def AppError.claude_cli_not_found : AppError :=
  ⟨ErrorCode.claudeCliNotFound, "Claude CLI is not installed or not in PATH"⟩

/-- `ClaudeEvent` from `parser.rs`. -/
inductive ClaudeEvent where
  | assistant (message_id : Option String)
  | textDelta (text : String)
  | toolUse (name : String) (input : Json)
  | toolResult (tool_use_id : String) (content : String)
  | messageStop
  | error (message : String)
  | unknown
deriving Repr

/-- `RawEvent` from `parser.rs`: the `serde` view of one NDJSON line, a
string discriminant (`type`) plus the remaining payload. -/
structure RawEvent where
  event_type : String
  data : Json
deriving Repr

/-- Deserialization of a JSON value into `RawEvent`, embedding the derived
`serde::Deserialize` with `#[serde(flatten)]`: the value must be an object
whose `type` field is a string; `data` holds the remaining fields. -/
def decodeRawEvent : Json → Option RawEvent
  | Json.obj fields =>
      match (Json.obj fields).get "type" with
      | some (Json.str t) =>
          some ⟨t, Json.obj (fields.filter (fun p => p.1 ≠ "type"))⟩
      | _ => none
  | _ => none

/-- `parse_claude_output` from `parser.rs`, from the point where the line
has been decoded as JSON text (lines that are not valid JSON at all fail at
the same `serde_json::from_str` call as those failing `RawEvent` decoding,
with the same error). -/
def parse_claude_output (line : Json) : Except AppError ClaudeEvent :=
  match decodeRawEvent line with
  | none => Except.error (AppError.claude_cli_error "JSON parse error")
  | some raw =>
    match raw.event_type with
    | "assistant" =>
        let message_id :=
          ((raw.data.get "message").bind (fun m => m.get "id")).bind Json.asStr
        Except.ok (ClaudeEvent.assistant message_id)
    | "content_block_start" => Except.ok ClaudeEvent.unknown
    | "content_block_delta" =>
        match raw.data.get "delta" with
        | some delta =>
            match (delta.get "text").bind Json.asStr with
            | some text => Except.ok (ClaudeEvent.textDelta text)
            | none => Except.ok ClaudeEvent.unknown
        | none => Except.ok ClaudeEvent.unknown
    | "content_block_stop" => Except.ok ClaudeEvent.unknown
    | "tool_use" =>
        let name := ((raw.data.get "name").bind Json.asStr).getD "unknown"
        let input := (raw.data.get "input").getD Json.null
        Except.ok (ClaudeEvent.toolUse name input)
    | "tool_result" =>
        let tool_use_id := ((raw.data.get "tool_use_id").bind Json.asStr).getD ""
        let content := ((raw.data.get "content").bind Json.asStr).getD ""
        Except.ok (ClaudeEvent.toolResult tool_use_id content)
    | "message_stop" => Except.ok ClaudeEvent.messageStop
    | "message_delta" => Except.ok ClaudeEvent.unknown
    | "message_start" => Except.ok ClaudeEvent.unknown
    | "error" =>
        let message :=
          (((raw.data.get "error").bind (fun e => e.get "message")).bind
            Json.asStr).getD "Unknown error"
        Except.ok (ClaudeEvent.error message)
    | "ping" => Except.ok ClaudeEvent.unknown
    | _ => Except.ok ClaudeEvent.unknown

/-- The §4.3 table of the specification, written from its words (for the
refinement claim about `parse_claude_output`): a decoded record's string
discriminant selects the produced event — `assistant` yields AssistantStart
carrying the nested `message.id` string when present; `content_block_delta`
with a `delta.text` string yields TextDelta; `tool_use` yields ToolUse with
name defaulting to `"unknown"` and input payload defaulting to empty;
`tool_result` yields ToolResult with content defaulting to the empty
string; `message_stop` yields MessageStop; `error` yields Error with the
message from nested `error.message`, defaulting to `"Unknown error"`; every
other discriminant yields Ignored; a line that does not decode as a record
with a string discriminant yields a ParseError. -/
def specParseLine (line : Json) : Except AppError ClaudeEvent :=
  match decodeRawEvent line with
  | none => Except.error (AppError.claude_cli_error "JSON parse error")
  | some raw =>
      let d := raw.data
      if raw.event_type = "assistant" then
        Except.ok (ClaudeEvent.assistant
          (((d.get "message").bind (fun m => m.get "id")).bind Json.asStr))
      else if raw.event_type = "content_block_delta" then
        match ((d.get "delta").bind (fun x => x.get "text")).bind Json.asStr with
        | some text => Except.ok (ClaudeEvent.textDelta text)
        | none => Except.ok ClaudeEvent.unknown
      else if raw.event_type = "tool_use" then
        Except.ok (ClaudeEvent.toolUse (((d.get "name").bind Json.asStr).getD "unknown")
          ((d.get "input").getD Json.null))
      else if raw.event_type = "tool_result" then
        Except.ok (ClaudeEvent.toolResult (((d.get "tool_use_id").bind Json.asStr).getD "")
          (((d.get "content").bind Json.asStr).getD ""))
      else if raw.event_type = "message_stop" then
        Except.ok ClaudeEvent.messageStop
      else if raw.event_type = "error" then
        Except.ok (ClaudeEvent.error
          ((((d.get "error").bind (fun e => e.get "message")).bind Json.asStr).getD
            "Unknown error"))
      else Except.ok ClaudeEvent.unknown

/-- `ClaudeStatus` from `state/app_state.rs`. -/
inductive ClaudeStatus where
  | starting
  | ready
  | busy
  | stopped
  | error
deriving Repr, DecidableEq

/-- `CliProcess` from `process.rs`: the child-process handle is modelled by
the availability of its piped stdin/stdout channels (`child.stdin`,
`child.stdout`, which `as_mut`/`take` inspect), plus the stored status. -/
structure CliProcess where
  stdinAvail : Bool
  stdoutAvail : Bool
  status : ClaudeStatus
deriving Repr, DecidableEq

/-- The registry map `HashMap<String, CliProcess>` behind the `RwLock`,
modelled as an association list with unique keys kept by construction. -/
abbrev Registry := List (String × CliProcess)

/-- `HashMap::get` / `contains_key`. -/
def Registry.find : Registry → String → Option CliProcess
  | [], _ => none
  | (k, v) :: rest, sid => if k = sid then some v else Registry.find rest sid

/-- `HashMap::insert` (replacing any existing entry for the key). -/
def Registry.insert : Registry → String → CliProcess → Registry
  | [], sid, p => [(sid, p)]
  | (k, v) :: rest, sid, p =>
      if k = sid then (sid, p) :: rest else (k, v) :: Registry.insert rest sid p

/-- `HashMap::remove`. -/
def Registry.erase : Registry → String → Registry
  | [], _ => []
  | (k, v) :: rest, sid =>
      if k = sid then rest else (k, v) :: Registry.erase rest sid

/-- In-place mutation of one entry (`processes.get_mut(id)` followed by a
field update); the identity when the key is absent. -/
def Registry.modify : Registry → String → (CliProcess → CliProcess) → Registry
  | [], _, _ => []
  | (k, v) :: rest, sid, f =>
      if k = sid then (k, f v) :: rest else (k, v) :: Registry.modify rest sid f

/-- Events emitted to the frontend sink (`events/mod.rs` payload shapes):
`claude_output` with `ClaudeOutputPayload`, `claude_status` with
`ClaudeStatusPayload` (the `error` field is always `None` in `emit_status`),
and `claude_error` with the ad-hoc JSON payload built in `stream_output`. -/
inductive Emit where
  | output (session_id message_id chunk : String) (is_complete : Bool)
  | status (session_id status : String)
  | claudeError (session_id errorMsg : String) (recoverable : Bool)
deriving Repr, DecidableEq

/-- `CliManager::get_status`: the stored status, `Stopped` when absent. -/
def CliManager.get_status (reg : Registry) (session_id : String) : ClaudeStatus :=
  match reg.find session_id with
  | some p => p.status
  | none => ClaudeStatus.stopped

/-- `CliManager::is_running`: `contains_key`. -/
def CliManager.is_running (reg : Registry) (session_id : String) : Bool :=
  (reg.find session_id).isSome

/-- Outcome of `CliManager::stop`: the updated registry, whether
`child.kill()` was invoked, and the returned result. -/
structure StopOutcome where
  reg : Registry
  killed : Bool
  result : Except AppError Unit

/-- `CliManager::stop`: remove the entry if present and kill the child;
always returns `Ok(())`. -/
def CliManager.stop (reg : Registry) (session_id : String) : StopOutcome :=
  match reg.find session_id with
  | some _ => ⟨reg.erase session_id, true, Except.ok ()⟩
  | none => ⟨reg, false, Except.ok ()⟩

/-- Success/failure oracle for the three awaited stdin operations of
`send_message`: `write_all(content)`, `write_all(b"\n")`, `flush()`. -/
structure SendIO where
  writeContentOk : Bool
  writeNewlineOk : Bool
  flushOk : Bool
deriving Repr, DecidableEq

/-- Outcome of `CliManager::send_message`: the updated registry, the chunks
successfully handed to the stdin pipe, and the returned result. -/
structure SendOutcome where
  reg : Registry
  written : List String
  result : Except AppError Unit
deriving Repr

/-- `CliManager::send_message`: absent entry fails; unavailable stdin fails;
each write/flush failure fails with its own message; on full success the
content and a newline are written, the pipe flushed, and the stored status
set to `Busy`. -/
def CliManager.send_message (reg : Registry) (session_id content : String)
    (io : SendIO) : SendOutcome :=
  match reg.find session_id with
  | none => ⟨reg, [], Except.error (AppError.claude_cli_error "CLI not running for session")⟩
  | some p =>
      if p.stdinAvail then
        if io.writeContentOk then
          if io.writeNewlineOk then
            if io.flushOk then
              ⟨reg.modify session_id (fun q => { q with status := ClaudeStatus.busy }),
                [content, "\n"], Except.ok ()⟩
            else ⟨reg, [content, "\n"], Except.error (AppError.claude_cli_error "Failed to flush")⟩
          else ⟨reg, [content], Except.error (AppError.claude_cli_error "Failed to write")⟩
        else ⟨reg, [], Except.error (AppError.claude_cli_error "Failed to write")⟩
      else ⟨reg, [], Except.error (AppError.claude_cli_error "CLI stdin not available")⟩

/-- Success/failure oracle for the environment interactions of
`CliManager::start`: resolving the executable via `which`, `cmd.spawn()`,
and the two resume-context stdin writes. -/
structure StartIO where
  execFound : Bool
  spawnOk : Bool
  ctxWriteOk : Bool
  newlineWriteOk : Bool
deriving Repr, DecidableEq

/-- Outcome of `CliManager::start`: the updated registry, whether a child
process was spawned, the emitted status events, and the returned result. -/
structure StartOutcome where
  reg : Registry
  spawned : Bool
  emits : List Emit
  result : Except AppError Unit
deriving Repr

/-- `CliManager::start`: early success when an entry already exists; emits
`starting`; resolves the executable; spawns with all three stdio channels
piped; optionally writes the resume context plus a newline; stores the
handle with `Status = Ready`; emits `ready`.  (The background
`stream_output` task it launches is modelled separately.) -/
def CliManager.start (reg : Registry) (session_id : String)
    (resume_context : Option String) (io : StartIO) : StartOutcome :=
  if (reg.find session_id).isSome then
    ⟨reg, false, [], Except.ok ()⟩
  else
    let emits := [Emit.status session_id "starting"]
    if ¬ io.execFound then
      ⟨reg, false, emits, Except.error AppError.claude_cli_not_found⟩
    else if ¬ io.spawnOk then
      ⟨reg, false, emits, Except.error (AppError.claude_cli_error "Failed to spawn CLI")⟩
    else
      match resume_context with
      | some _ =>
          if ¬ io.ctxWriteOk then
            ⟨reg, true, emits, Except.error (AppError.claude_cli_error "Failed to write context")⟩
          else if ¬ io.newlineWriteOk then
            ⟨reg, true, emits, Except.error (AppError.claude_cli_error "Failed to write")⟩
          else
            ⟨reg.insert session_id ⟨true, true, ClaudeStatus.ready⟩, true,
              emits ++ [Emit.status session_id "ready"], Except.ok ()⟩
      | none =>
          ⟨reg.insert session_id ⟨true, true, ClaudeStatus.ready⟩, true,
            emits ++ [Emit.status session_id "ready"], Except.ok ()⟩

/-- The per-message accumulator owned by `stream_output`: the current
message id, the text accumulated so far, and a counter driving the
uuid-based fresh-id generator. -/
structure LoopState where
  message_id : String
  current_text : String
  counter : Nat
deriving Repr, DecidableEq

/-- The `match event` body of `stream_output` for one parsed event:
updates the accumulator and the registry and emits frontend events.
`gen` supplies the uuid-based fresh message ids. -/
def handleEvent (gen : Nat → String) (session_id : String) (reg : Registry)
    (st : LoopState) (ev : ClaudeEvent) : Registry × LoopState × List Emit :=
  match ev with
  | ClaudeEvent.assistant new_id =>
      let mid := new_id.getD (gen st.counter)
      let counter := match new_id with | some _ => st.counter | none => st.counter + 1
      (reg, ⟨mid, "", counter⟩, [])
  | ClaudeEvent.textDelta text =>
      (reg, { st with current_text := st.current_text ++ text },
        [Emit.output session_id st.message_id text false])
  | ClaudeEvent.toolUse _ _ => (reg, st, [])
  | ClaudeEvent.toolResult _ _ => (reg, st, [])
  | ClaudeEvent.messageStop =>
      (reg.modify session_id (fun q => { q with status := ClaudeStatus.ready }),
        st,
        [Emit.output session_id st.message_id "" true,
         Emit.status session_id "ready"])
  | ClaudeEvent.error message =>
      (reg, st, [Emit.claudeError session_id message true])
  | ClaudeEvent.unknown => (reg, st, [])

/-- One line as delivered by `lines.next_line()`: an empty line, a line that
decoded as the JSON value `j`, or a non-empty line that is not valid JSON. -/
inductive RawLine where
  | blank
  | json (j : Json)
  | garbage
deriving Repr

/-- One iteration of the `while let` loop of `stream_output`: empty lines
are skipped, parse failures are logged and skipped, parsed events are
handled by `handleEvent`. -/
def processLine (gen : Nat → String) (session_id : String) (reg : Registry)
    (st : LoopState) (ln : RawLine) : Registry × LoopState × List Emit :=
  match ln with
  | RawLine.blank => (reg, st, [])
  | RawLine.garbage => (reg, st, [])
  | RawLine.json j =>
      match parse_claude_output j with
      | Except.ok ev => handleEvent gen session_id reg st ev
      | Except.error _ => (reg, st, [])

/-- The reading loop of `stream_output` over the whole line stream,
accumulating emitted events in order. -/
def runLoop (gen : Nat → String) (session_id : String) :
    Registry → LoopState → List RawLine → Registry × LoopState × List Emit
  | reg, st, [] => (reg, st, [])
  | reg, st, ln :: rest =>
      let r := processLine gen session_id reg st ln
      let r2 := runLoop gen session_id r.1 r.2.1 rest
      (r2.1, r2.2.1, r.2.2 ++ r2.2.2)

/-- The reading loop restricted to the already-parsed events it handles:
the iteration of the `match event` body over a sequence of events (the
form in which §8 states the accumulation property). -/
def runEvents (gen : Nat → String) (session_id : String) :
    Registry → LoopState → List ClaudeEvent → Registry × LoopState × List Emit
  | reg, st, [] => (reg, st, [])
  | reg, st, ev :: rest =>
      let r := handleEvent gen session_id reg st ev
      let r2 := runEvents gen session_id r.1 r.2.1 rest
      (r2.1, r2.2.1, r.2.2 ++ r2.2.2)

/-- `stream_output` from `process.rs`: takes the child's stdout (returning
silently if the session is absent or stdout was already taken), runs the
reading loop to end-of-stream, then removes the session from the registry
and emits a `stopped` status. -/
def stream_output (gen : Nat → String) (session_id : String) (reg : Registry)
    (lines : List RawLine) : Registry × List Emit :=
  match reg.find session_id with
  | none => (reg, [])
  | some p =>
      if p.stdoutAvail then
        let reg := reg.modify session_id (fun q => { q with stdoutAvail := false })
        let st : LoopState := ⟨gen 0, "", 1⟩
        let r := runLoop gen session_id reg st lines
        (r.1.erase session_id, r.2.2 ++ [Emit.status session_id "stopped"])
      else (reg, [])

/-- §7 taxonomy: the `ProcessNotRunning` error kind, i.e. the
`ClaudeCliError`-coded failure `send_message` returns for a session with no
registry entry. -/
def AppError.isProcessNotRunning (e : AppError) : Bool :=
  e.code == ErrorCode.claudeCliError && e.message == "CLI not running for session"

/-- §7 taxonomy: the `WriteFailure` error kind — stdin unavailable, a
failed `write_all`, or a failed `flush`. -/
def AppError.isWriteFailure (e : AppError) : Bool :=
  e.code == ErrorCode.claudeCliError &&
    (e.message == "CLI stdin not available" || e.message == "Failed to write" ||
      e.message == "Failed to flush")

/-- The result is the `ProcessNotRunning` failure. -/
def resultIsProcessNotRunning : Except AppError Unit → Bool
  | Except.error e => e.isProcessNotRunning
  | Except.ok _ => false

/-- The result is a `WriteFailure`. -/
def resultIsWriteFailure : Except AppError Unit → Bool
  | Except.error e => e.isWriteFailure
  | Except.ok _ => false

/-- The result is success or one of the two documented failure kinds. -/
def resultIsOkOrDocumented : Except AppError Unit → Bool
  | Except.ok _ => true
  | Except.error e => e.isProcessNotRunning || e.isWriteFailure

/-- The result is a success. -/
def resultIsOk : Except AppError Unit → Bool
  | Except.ok _ => true
  | Except.error _ => false

/-- Registry well-formedness: no duplicate session keys (the `HashMap`
invariant the association-list model must carry explicitly). -/
def keysNodup (reg : Registry) : Prop := (reg.map Prod.fst).Nodup

/-- Whether an event is an AssistantStart. -/
def ClaudeEvent.isAssistant : ClaudeEvent → Bool
  | ClaudeEvent.assistant _ => true
  | _ => false

/-- The `chunk` fields of the Output notifications in an emitted trace, in
emission order. -/
def outputChunks : List Emit → List String
  | [] => []
  | Emit.output _ _ chunk _ :: rest => chunk :: outputChunks rest
  | _ :: rest => outputChunks rest

/-- The text fragments of the TextDelta events in a sequence, in receipt
order. -/
def deltaTexts : List ClaudeEvent → List String
  | [] => []
  | ClaudeEvent.textDelta t :: rest => t :: deltaTexts rest
  | _ :: rest => deltaTexts rest

/-- Concatenation of a list of strings in order. -/
def concatStrings : List String → String
  | [] => ""
  | s :: rest => s ++ concatStrings rest

/-- A malformed protocol line: a non-empty line that is not valid JSON, or
valid JSON on which `parse_claude_output` reports a parse failure. -/
def lineIsMalformed : RawLine → Bool
  | RawLine.garbage => true
  | RawLine.json j =>
      match parse_claude_output j with
      | Except.error _ => true
      | Except.ok _ => false
  | RawLine.blank => false

/-- How many `claude_status` events with status `stopped` a trace carries
for a given session. -/
def countStopped (sid : String) : List Emit → Nat
  | [] => 0
  | Emit.status s v :: rest =>
      (if s = sid ∧ v = "stopped" then 1 else 0) + countStopped sid rest
  | _ :: rest => countStopped sid rest

/-- `CliManager::cancel`: best-effort interrupt delivery (SIGINT on unix, a
logged warning elsewhere); always returns `Ok(())` and touches neither the
registry nor any stored status. -/
def CliManager.cancel (reg : Registry) (_session_id : String) :
    Registry × Except AppError Unit :=
  (reg, Except.ok ())

/-- The operations that can act on one session: the public registry API
(`start`, `send_message`, `stop`, `cancel`) and the session's own streaming
loop (one line processed, or the end-of-stream cleanup). -/
inductive SessionOp where
  | startOp (ctx : Option String) (io : StartIO)
  | sendOp (content : String) (io : SendIO)
  | stopOp
  | cancelOp
  | lineOp (ln : RawLine)
  | eosOp

/-- Effect of one operation on the session's registry state and loop
accumulator, each case delegating to the corresponding embedded function. -/
def stepOp (gen : Nat → String) (sid : String) :
    Registry × LoopState → SessionOp → Registry × LoopState
  | (reg, st), SessionOp.startOp ctx io => ((CliManager.start reg sid ctx io).reg, st)
  | (reg, st), SessionOp.sendOp content io =>
      ((CliManager.send_message reg sid content io).reg, st)
  | (reg, st), SessionOp.stopOp => ((CliManager.stop reg sid).reg, st)
  | (reg, st), SessionOp.cancelOp => ((CliManager.cancel reg sid).1, st)
  | (reg, st), SessionOp.lineOp ln =>
      ((processLine gen sid reg st ln).1, (processLine gen sid reg st ln).2.1)
  | (reg, st), SessionOp.eosOp => (reg.erase sid, st)

/-- A stored process record carries only the statuses the code ever stores:
`Ready` (at registration and on MessageStop) or `Busy` (on send). -/
def statusOk (p : CliProcess) : Prop :=
  p.status = ClaudeStatus.ready ∨ p.status = ClaudeStatus.busy

/-- Registry invariant: every stored entry has a storable status. -/
def WfReg (reg : Registry) : Prop := ∀ kv ∈ reg, statusOk kv.2

/-- The edges of the §4.4 status state machine: Starting → Ready,
Ready → Busy (send), Busy → Ready (MessageStop), any state → Stopped
(stop or end-of-stream), plus staying in place; nothing leaves Stopped. -/
def allowedEdge : ClaudeStatus → ClaudeStatus → Bool
  | ClaudeStatus.starting, ClaudeStatus.ready => true
  | ClaudeStatus.ready, ClaudeStatus.busy => true
  | ClaudeStatus.busy, ClaudeStatus.ready => true
  | _, ClaudeStatus.stopped => true
  | a, b => a == b

/-- The observable status of the session before and after each operation of
a run (absence from the registry reads as Stopped, per §3). -/
def statusTrace (gen : Nat → String) (sid : String) :
    Registry × LoopState → List SessionOp → List ClaudeStatus
  | s, [] => [CliManager.get_status s.1 sid]
  | s, op :: ops =>
      CliManager.get_status s.1 sid :: statusTrace gen sid (stepOp gen sid s op) ops

/-- Truncation of a status trace at the session lifetime's end: everything
up to and including the first Stopped. -/
def untilStopped : List ClaudeStatus → List ClaudeStatus
  | [] => []
  | s :: rest =>
      if s = ClaudeStatus.stopped then [s] else s :: untilStopped rest

/-! ## Theorems -/

theorem find_eq_none_of_not_mem (reg : Registry) (sid : String)
    (h : sid ∉ reg.map Prod.fst) : reg.find sid = none := by
  induction reg with
  | nil => rfl
  | cons kv rest ih =>
      obtain ⟨k, v⟩ := kv
      simp only [List.map_cons, List.mem_cons] at h
      push_neg at h
      have hk : ¬ k = sid := fun hk => h.1 hk.symm
      simp [Registry.find, hk, ih h.2]

theorem find_erase_self (reg : Registry) (sid : String)
    (h : keysNodup reg) : (reg.erase sid).find sid = none := by
  induction reg with
  | nil => rfl
  | cons kv rest ih =>
      obtain ⟨k, v⟩ := kv
      simp only [keysNodup, List.map_cons, List.nodup_cons] at h
      by_cases hk : k = sid
      · subst hk
        simpa [Registry.erase] using find_eq_none_of_not_mem rest k h.1
      · simp [Registry.erase, hk, Registry.find, ih h.2]

theorem find_insert_self (reg : Registry) (sid : String) (p : CliProcess) :
    (reg.insert sid p).find sid = some p := by
  induction reg with
  | nil => simp [Registry.insert, Registry.find]
  | cons kv rest ih =>
      obtain ⟨k, v⟩ := kv
      by_cases hk : k = sid
      · subst hk; simp [Registry.insert, Registry.find]
      · simp [Registry.insert, hk, Registry.find, ih]

/-- Literal scenario from §8: a `content_block_delta` line yields the
corresponding `TextDelta`. -/
example :
    parse_claude_output (Json.obj [("type", Json.str "content_block_delta"),
      ("delta", Json.obj [("text", Json.str "Hi ")])]) =
      Except.ok (ClaudeEvent.textDelta "Hi ") := rfl

example :
    parse_claude_output (Json.obj [("type", Json.str "message_stop")]) =
      Except.ok ClaudeEvent.messageStop := rfl

example :
    parse_claude_output (Json.obj [("type", Json.str "error"),
      ("error", Json.obj [("message", Json.str "Rate limited")])]) =
      Except.ok (ClaudeEvent.error "Rate limited") := rfl

example :
    parse_claude_output (Json.obj [("type", Json.str "foo")]) =
      Except.ok ClaudeEvent.unknown := rfl

example :
    parse_claude_output (Json.obj [("kind", Json.str "assistant")]) =
      Except.error (AppError.claude_cli_error "JSON parse error") := rfl

/-- The code's parser agrees with the specification's table on every
decoded line (shared helper). -/
theorem parse_eq_specParse (line : Json) :
    parse_claude_output line = specParseLine line := by
  unfold parse_claude_output specParseLine
  cases hdec : decodeRawEvent line with
  | none => rfl
  | some raw =>
    obtain ⟨t, d⟩ := raw
    by_cases h1 : t = "assistant"
    · subst h1; rfl
    by_cases h2 : t = "content_block_start"
    · subst h2; rfl
    by_cases h3 : t = "content_block_delta"
    · subst h3
      cases hdelta : d.get "delta" with
      | none => simp [hdelta]
      | some delta =>
        cases htext : (delta.get "text").bind Json.asStr with
        | none => simp [hdelta, htext, Option.bind]
        | some text => simp [hdelta, htext, Option.bind]
    by_cases h4 : t = "content_block_stop"
    · subst h4; rfl
    by_cases h5 : t = "tool_use"
    · subst h5; rfl
    by_cases h6 : t = "tool_result"
    · subst h6; rfl
    by_cases h7 : t = "message_stop"
    · subst h7; rfl
    by_cases h8 : t = "message_delta"
    · subst h8; rfl
    by_cases h9 : t = "message_start"
    · subst h9; rfl
    by_cases h10 : t = "error"
    · subst h10; rfl
    by_cases h11 : t = "ping"
    · subst h11; rfl
    simp [h1, h2, h3, h4, h5, h6, h7, h8, h9, h10, h11]

/-- C1: for every input line, `parse_claude_output` maps the discriminant
to exactly the event the §4.3 table documents — `assistant` to
AssistantStart with the nested `message.id` string when present,
`content_block_delta` with a `delta.text` string to TextDelta, `tool_use`
to ToolUse with name defaulting to `"unknown"` and input defaulting to
empty, `tool_result` to ToolResult with content defaulting to `""`,
`message_stop` to MessageStop, `error` to Error with the nested
`error.message` defaulting to `"Unknown error"`, every other discriminant
to Ignored, and every line not decoding as a record with a string
discriminant to a ParseError. -/
theorem parse_claude_output_matches_spec_table (line : Json) :
    parse_claude_output line = specParseLine line :=
  parse_eq_specParse line

/-- C10: every well-formed line whose discriminant is
`content_block_delta` but whose payload lacks a `delta` object, or whose
`delta` lacks a string `text` field, parses to Ignored — not a TextDelta
and not a ParseError — and processing it in the streaming loop leaves the
registry and the accumulator unchanged and emits nothing. -/
theorem content_block_delta_without_text_is_ignored
    (gen : Nat → String) (sid : String) (reg : Registry) (st : LoopState)
    (j data : Json)
    (hdec : decodeRawEvent j = some ⟨"content_block_delta", data⟩)
    (htext : ((data.get "delta").bind (fun d => d.get "text")).bind Json.asStr = none) :
    parse_claude_output j = Except.ok ClaudeEvent.unknown ∧
    processLine gen sid reg st (RawLine.json j) = (reg, st, []) := by
  have hp : parse_claude_output j = Except.ok ClaudeEvent.unknown := by
    rw [parse_eq_specParse]
    unfold specParseLine
    rw [hdec]
    simp [htext]
  exact ⟨hp, by simp [processLine, hp, handleEvent]⟩

/-- Witness for C10 at the concrete line
`{"type":"content_block_delta","delta":{"type":"text_delta"}}`. -/
theorem content_block_delta_without_text_is_ignored_witness :
    parse_claude_output (Json.obj [("type", Json.str "content_block_delta"),
        ("delta", Json.obj [("type", Json.str "text_delta")])]) =
      Except.ok ClaudeEvent.unknown ∧
    processLine (fun _ => "m0") "sess-1" [] ⟨"m0", "", 1⟩
      (RawLine.json (Json.obj [("type", Json.str "content_block_delta"),
        ("delta", Json.obj [("type", Json.str "text_delta")])])) =
      ([], ⟨"m0", "", 1⟩, []) :=
  content_block_delta_without_text_is_ignored (fun _ => "m0") "sess-1" [] ⟨"m0", "", 1⟩
    _ (Json.obj [("delta", Json.obj [("type", Json.str "text_delta")])]) rfl rfl

/-- C4: `send_message` returns `ProcessNotRunning` when the registry has no
entry for the session; returns `WriteFailure` when the entry's stdin
channel is unavailable or any of the content write, newline write, or flush
fails; otherwise writes the content followed by a line terminator, flushes,
sets the stored status to Busy and returns success; and it never returns
any failure outside these two kinds. -/
theorem send_message_error_taxonomy (reg : Registry) (sid content : String)
    (io : SendIO) :
    (reg.find sid = none →
      resultIsProcessNotRunning (CliManager.send_message reg sid content io).result = true) ∧
    (∀ p, reg.find sid = some p →
      (p.stdinAvail = false ∨ io.writeContentOk = false ∨ io.writeNewlineOk = false ∨
        io.flushOk = false) →
      resultIsWriteFailure (CliManager.send_message reg sid content io).result = true) ∧
    (∀ p, reg.find sid = some p → p.stdinAvail = true → io.writeContentOk = true →
      io.writeNewlineOk = true → io.flushOk = true →
      CliManager.send_message reg sid content io =
        ⟨reg.modify sid (fun q => { q with status := ClaudeStatus.busy }),
          [content, "\n"], Except.ok ()⟩) ∧
    resultIsOkOrDocumented (CliManager.send_message reg sid content io).result = true := by
  cases h : reg.find sid with
  | none =>
      refine ⟨?_, fun p hp => by simp at hp, fun p hp => by simp at hp, ?_⟩ <;>
        first
          | exact fun _ => by
              simp [CliManager.send_message, h, resultIsProcessNotRunning,
                AppError.isProcessNotRunning, AppError.claude_cli_error]
          | simp [CliManager.send_message, h, resultIsOkOrDocumented,
              AppError.isProcessNotRunning, AppError.claude_cli_error]
  | some p =>
      refine ⟨fun habs => by simp at habs, ?_, ?_, ?_⟩
      · intro q hq hbad
        cases hq
        rcases hbad with hb | hb | hb | hb <;>
          cases hs : p.stdinAvail <;> cases w1 : io.writeContentOk <;>
            cases w2 : io.writeNewlineOk <;> cases w3 : io.flushOk <;>
            simp_all [CliManager.send_message, h, resultIsWriteFailure,
              AppError.isWriteFailure, AppError.claude_cli_error]
      · intro q hq h1 h2 h3 h4
        cases hq
        simp [CliManager.send_message, h, h1, h2, h3, h4]
      · cases hs : p.stdinAvail <;> cases w1 : io.writeContentOk <;>
          cases w2 : io.writeNewlineOk <;> cases w3 : io.flushOk <;>
          simp [CliManager.send_message, h, hs, w1, w2, w3, resultIsOkOrDocumented,
            resultIsWriteFailure, AppError.isWriteFailure, AppError.claude_cli_error]

/-- Witness for C4: the absent-session, broken-stdin, and successful cases
at concrete inputs. -/
theorem send_message_error_taxonomy_witness :
    resultIsProcessNotRunning
      (CliManager.send_message [] "s1" "hello" ⟨true, true, true⟩).result = true ∧
    resultIsWriteFailure
      (CliManager.send_message [("s1", ⟨false, true, ClaudeStatus.ready⟩)] "s1" "hello"
        ⟨true, true, true⟩).result = true ∧
    CliManager.send_message [("s1", ⟨true, true, ClaudeStatus.ready⟩)] "s1" "hello"
        ⟨true, true, true⟩ =
      ⟨[("s1", ⟨true, true, ClaudeStatus.busy⟩)], ["hello", "\n"], Except.ok ()⟩ := by
  refine ⟨(send_message_error_taxonomy [] "s1" "hello" ⟨true, true, true⟩).1 rfl, ?_, ?_⟩
  · exact (send_message_error_taxonomy [("s1", ⟨false, true, ClaudeStatus.ready⟩)] "s1"
      "hello" ⟨true, true, true⟩).2.1 ⟨false, true, ClaudeStatus.ready⟩ rfl (Or.inl rfl)
  · exact (send_message_error_taxonomy [("s1", ⟨true, true, ClaudeStatus.ready⟩)] "s1"
      "hello" ⟨true, true, true⟩).2.2.1 ⟨true, true, ClaudeStatus.ready⟩ rfl rfl rfl rfl rfl

/-- C9: `send_message` is atomic with respect to the stored status —
whenever it returns an error (absent session, unavailable stdin, or a
failed write or flush) the registry, including the session's stored status,
is exactly as before the call; and the status is set to Busy (the sole
registry change) only when the content write, the newline write and the
flush all succeeded. -/
theorem send_message_atomic (reg : Registry) (sid content : String) (io : SendIO) :
    (resultIsOk (CliManager.send_message reg sid content io).result = false →
      (CliManager.send_message reg sid content io).reg = reg) ∧
    (resultIsOk (CliManager.send_message reg sid content io).result = true →
      io.writeContentOk = true ∧ io.writeNewlineOk = true ∧ io.flushOk = true ∧
      (CliManager.send_message reg sid content io).reg =
        reg.modify sid (fun q => { q with status := ClaudeStatus.busy })) := by
  cases h : reg.find sid with
  | none => simp [CliManager.send_message, h, resultIsOk]
  | some p =>
      cases hs : p.stdinAvail <;> cases w1 : io.writeContentOk <;>
        cases w2 : io.writeNewlineOk <;> cases w3 : io.flushOk <;>
        simp [CliManager.send_message, h, hs, w1, w2, w3, resultIsOk]

/-- Witness for C9: a failed flush leaves the registry untouched, and a
fully successful send performs exactly the Busy update. -/
theorem send_message_atomic_witness :
    (CliManager.send_message [("s2", ⟨true, true, ClaudeStatus.ready⟩)] "s2" "hi"
      ⟨true, true, false⟩).reg = [("s2", ⟨true, true, ClaudeStatus.ready⟩)] ∧
    (CliManager.send_message [("s2", ⟨true, true, ClaudeStatus.ready⟩)] "s2" "hi"
      ⟨true, true, true⟩).reg =
      Registry.modify [("s2", ⟨true, true, ClaudeStatus.ready⟩)] "s2"
        (fun q => { q with status := ClaudeStatus.busy }) := by
  constructor
  · exact (send_message_atomic [("s2", ⟨true, true, ClaudeStatus.ready⟩)] "s2" "hi"
      ⟨true, true, false⟩).1 rfl
  · exact ((send_message_atomic [("s2", ⟨true, true, ClaudeStatus.ready⟩)] "s2" "hi"
      ⟨true, true, true⟩).2 rfl).2.2.2

/-- C8: `stop` always returns success; when an entry is present it removes
it and kills the child process, leaving the session no longer running; when
absent it is a no-op that performs no kill and leaves the registry
untouched — so the second of two racing removals (explicit `stop` versus
the loop's end-of-stream cleanup) is always a harmless success. -/
theorem stop_is_idempotent_removal (reg : Registry) (sid : String) :
    (CliManager.stop reg sid).result = Except.ok () ∧
    (reg.find sid = none →
      (CliManager.stop reg sid).reg = reg ∧ (CliManager.stop reg sid).killed = false) ∧
    (∀ p, reg.find sid = some p →
      (CliManager.stop reg sid).reg = reg.erase sid ∧
      (CliManager.stop reg sid).killed = true) ∧
    (keysNodup reg →
      CliManager.is_running (CliManager.stop reg sid).reg sid = false) := by
  cases h : reg.find sid with
  | none =>
      refine ⟨by simp [CliManager.stop, h], fun _ => by simp [CliManager.stop, h],
        fun p hp => by simp [h] at hp, fun _ => ?_⟩
      simp [CliManager.stop, h, CliManager.is_running]
  | some p =>
      refine ⟨by simp [CliManager.stop, h], fun habs => by simp [h] at habs,
        fun q hq => by cases hq; simp [CliManager.stop, h], fun hnd => ?_⟩
      simp [CliManager.is_running, CliManager.stop, h, find_erase_self reg sid hnd]

/-- Witness for C8: stopping an absent session and a present one. -/
theorem stop_is_idempotent_removal_witness :
    (CliManager.stop [] "s3").result = Except.ok () ∧
    (CliManager.stop [] "s3").reg = [] ∧
    (CliManager.stop [("s3", ⟨true, true, ClaudeStatus.busy⟩)] "s3").killed = true ∧
    CliManager.is_running
      (CliManager.stop [("s3", ⟨true, true, ClaudeStatus.busy⟩)] "s3").reg "s3" = false := by
  refine ⟨(stop_is_idempotent_removal [] "s3").1,
    ((stop_is_idempotent_removal [] "s3").2.1 rfl).1,
    ((stop_is_idempotent_removal [("s3", ⟨true, true, ClaudeStatus.busy⟩)] "s3").2.2.1
      ⟨true, true, ClaudeStatus.busy⟩ rfl).2,
    (stop_is_idempotent_removal [("s3", ⟨true, true, ClaudeStatus.busy⟩)] "s3").2.2.2
      (by simp [keysNodup])⟩

/-- C5: `start` is idempotent — an existing registry entry makes it return
success immediately, spawning nothing and changing nothing; a successful
start always leaves the session registered with `Status = Ready`; and a
second `start` after a successful first one spawns no further process. -/
theorem start_is_idempotent (reg : Registry) (sid : String) (ctx ctx2 : Option String)
    (io io2 : StartIO) :
    ((reg.find sid).isSome = true →
      CliManager.start reg sid ctx io = ⟨reg, false, [], Except.ok ()⟩) ∧
    ((CliManager.start reg sid ctx io).result = Except.ok () →
      (CliManager.start reg sid ctx io).reg.find sid = some ⟨true, true, ClaudeStatus.ready⟩ ∨
      (reg.find sid).isSome = true) ∧
    ((CliManager.start reg sid ctx io).result = Except.ok () →
      CliManager.start (CliManager.start reg sid ctx io).reg sid ctx2 io2 =
        ⟨(CliManager.start reg sid ctx io).reg, false, [], Except.ok ()⟩) := by
  cases h : reg.find sid with
  | some p =>
      refine ⟨fun _ => by simp [CliManager.start, h], fun _ => Or.inr (by simp [h]), fun _ => ?_⟩
      simp [CliManager.start, h]
  | none =>
      refine ⟨fun habs => by simp [h] at habs, fun hok => Or.inl ?_, fun hok => ?_⟩
      · cases he : io.execFound <;> cases hs : io.spawnOk <;> cases hc : io.ctxWriteOk <;>
          cases hn : io.newlineWriteOk <;> cases ctx <;>
          simp_all [CliManager.start, h, find_insert_self]
      · have hfind : ((CliManager.start reg sid ctx io).reg.find sid).isSome = true := by
          cases he : io.execFound <;> cases hs : io.spawnOk <;> cases hc : io.ctxWriteOk <;>
            cases hn : io.newlineWriteOk <;> cases ctx <;>
            simp_all [CliManager.start, h, find_insert_self]
        generalize (CliManager.start reg sid ctx io).reg = reg2 at hfind ⊢
        unfold CliManager.start
        rw [hfind]
        simp

/-- Witness for C5: a duplicate start is a spawn-free success, and a fresh
successful start registers the session Ready. -/
theorem start_is_idempotent_witness :
    CliManager.start [("s4", ⟨true, true, ClaudeStatus.ready⟩)] "s4" none
        ⟨true, true, true, true⟩ =
      ⟨[("s4", ⟨true, true, ClaudeStatus.ready⟩)], false, [], Except.ok ()⟩ ∧
    ((CliManager.start [] "s4" none ⟨true, true, true, true⟩).reg.find "s4" =
        some ⟨true, true, ClaudeStatus.ready⟩ ∨
      (Registry.find [] "s4").isSome = true) ∧
    CliManager.start (CliManager.start [] "s4" none ⟨true, true, true, true⟩).reg "s4"
        (some "resume") ⟨false, false, false, false⟩ =
      ⟨(CliManager.start [] "s4" none ⟨true, true, true, true⟩).reg, false, [],
        Except.ok ()⟩ := by
  refine ⟨(start_is_idempotent [("s4", ⟨true, true, ClaudeStatus.ready⟩)] "s4" none none
      ⟨true, true, true, true⟩ ⟨true, true, true, true⟩).1 rfl,
    (start_is_idempotent [] "s4" none none ⟨true, true, true, true⟩
      ⟨true, true, true, true⟩).2.1 rfl,
    (start_is_idempotent [] "s4" none (some "resume") ⟨true, true, true, true⟩
      ⟨false, false, false, false⟩).2.2 rfl⟩

theorem outputChunks_append (a b : List Emit) :
    outputChunks (a ++ b) = outputChunks a ++ outputChunks b := by
  induction a with
  | nil => rfl
  | cons e rest ih => cases e <;> simp [outputChunks, ih]

/-- Without an intervening AssistantStart (which would reset the buffer)
and without a MessageStop, the Output chunks the loop emits over a span of
events are exactly the TextDelta fragments, in receipt order. -/
theorem runEvents_chunks_eq_deltaTexts (gen : Nat → String) (sid : String)
    (reg : Registry) (st : LoopState) (evs : List ClaudeEvent)
    (hns : ∀ ev ∈ evs, ev ≠ ClaudeEvent.messageStop) :
    outputChunks (runEvents gen sid reg st evs).2.2 = deltaTexts evs := by
  induction evs generalizing reg st with
  | nil => rfl
  | cons ev rest ih =>
      have hr := fun e he => hns e (List.mem_cons_of_mem ev he)
      cases ev with
      | messageStop => exact absurd rfl (hns ClaudeEvent.messageStop (List.mem_cons_self _ _))
      | assistant mid => simp [runEvents, handleEvent, outputChunks_append, outputChunks,
          deltaTexts, ih _ _ hr]
      | textDelta t => simp [runEvents, handleEvent, outputChunks_append, outputChunks,
          deltaTexts, ih _ _ hr]
      | toolUse n i => simp [runEvents, handleEvent, outputChunks_append, outputChunks,
          deltaTexts, ih _ _ hr]
      | toolResult i c => simp [runEvents, handleEvent, outputChunks_append, outputChunks,
          deltaTexts, ih _ _ hr]
      | error m => simp [runEvents, handleEvent, outputChunks_append, outputChunks,
          deltaTexts, ih _ _ hr]
      | unknown => simp [runEvents, handleEvent, outputChunks_append, outputChunks,
          deltaTexts, ih _ _ hr]

/-- Without an intervening AssistantStart, the loop's internal buffer grows
by exactly the concatenation of the TextDelta fragments it handles. -/
theorem runEvents_buffer_concat (gen : Nat → String) (sid : String)
    (reg : Registry) (st : LoopState) (evs : List ClaudeEvent)
    (hna : ∀ ev ∈ evs, ev.isAssistant = false) :
    (runEvents gen sid reg st evs).2.1.current_text =
      st.current_text ++ concatStrings (deltaTexts evs) := by
  induction evs generalizing reg st with
  | nil => simp [runEvents, deltaTexts, concatStrings]
  | cons ev rest ih =>
      have hr := fun e he => hna e (List.mem_cons_of_mem ev he)
      cases ev with
      | assistant mid =>
          exact absurd (hna (ClaudeEvent.assistant mid) (List.mem_cons_self _ _))
            (by simp [ClaudeEvent.isAssistant])
      | textDelta t => simp [runEvents, handleEvent, deltaTexts, concatStrings,
          ih _ _ hr, String.append_assoc]
      | toolUse n i => simp [runEvents, handleEvent, deltaTexts, ih _ _ hr]
      | toolResult i c => simp [runEvents, handleEvent, deltaTexts, ih _ _ hr]
      | messageStop => simp [runEvents, handleEvent, deltaTexts, ih _ _ hr]
      | error m => simp [runEvents, handleEvent, deltaTexts, ih _ _ hr]
      | unknown => simp [runEvents, handleEvent, deltaTexts, ih _ _ hr]

/-- C2: between an AssistantStart and the next MessageStop, the
concatenation, in receipt order, of the fragments the loop forwards as
Output notifications equals the internal buffer at the moment MessageStop
is processed: the forwarded chunks are exactly the TextDelta fragments —
nothing reordered, nothing dropped, each notification carrying only the new
fragment — and their concatenation is the accumulated buffer. -/
theorem forwarded_fragments_match_buffer (gen : Nat → String) (sid : String)
    (reg : Registry) (st : LoopState) (mid : Option String) (evs : List ClaudeEvent)
    (hna : ∀ ev ∈ evs, ev.isAssistant = false)
    (hns : ∀ ev ∈ evs, ev ≠ ClaudeEvent.messageStop) :
    outputChunks
        (runEvents gen sid (handleEvent gen sid reg st (ClaudeEvent.assistant mid)).1
          (handleEvent gen sid reg st (ClaudeEvent.assistant mid)).2.1 evs).2.2 =
      deltaTexts evs ∧
    (runEvents gen sid (handleEvent gen sid reg st (ClaudeEvent.assistant mid)).1
        (handleEvent gen sid reg st (ClaudeEvent.assistant mid)).2.1 evs).2.1.current_text =
      concatStrings (deltaTexts evs) := by
  refine ⟨runEvents_chunks_eq_deltaTexts gen sid _ _ evs hns, ?_⟩
  have hb := runEvents_buffer_concat gen sid
    (handleEvent gen sid reg st (ClaudeEvent.assistant mid)).1
    (handleEvent gen sid reg st (ClaudeEvent.assistant mid)).2.1 evs hna
  have hreset : (handleEvent gen sid reg st (ClaudeEvent.assistant mid)).2.1.current_text = "" := by
    cases mid <;> simp [handleEvent]
  rw [hb, hreset]
  simp

/-- Witness for C2 at a concrete event sequence: two deltas then a tool
use. -/
theorem forwarded_fragments_match_buffer_witness :
    outputChunks
        (runEvents (fun _ => "m1") "s5"
          (handleEvent (fun _ => "m1") "s5" [] ⟨"m0", "x", 1⟩
            (ClaudeEvent.assistant (some "mid-7"))).1
          (handleEvent (fun _ => "m1") "s5" [] ⟨"m0", "x", 1⟩
            (ClaudeEvent.assistant (some "mid-7"))).2.1
          [ClaudeEvent.textDelta "Hel", ClaudeEvent.textDelta "lo",
            ClaudeEvent.toolUse "write_file" Json.null]).2.2 =
      ["Hel", "lo"] ∧
    (runEvents (fun _ => "m1") "s5"
        (handleEvent (fun _ => "m1") "s5" [] ⟨"m0", "x", 1⟩
          (ClaudeEvent.assistant (some "mid-7"))).1
        (handleEvent (fun _ => "m1") "s5" [] ⟨"m0", "x", 1⟩
          (ClaudeEvent.assistant (some "mid-7"))).2.1
        [ClaudeEvent.textDelta "Hel", ClaudeEvent.textDelta "lo",
          ClaudeEvent.toolUse "write_file" Json.null]).2.1.current_text =
      concatStrings ["Hel", "lo"] := by
  have h := forwarded_fragments_match_buffer (fun _ => "m1") "s5" [] ⟨"m0", "x", 1⟩
    (some "mid-7")
    [ClaudeEvent.textDelta "Hel", ClaudeEvent.textDelta "lo",
      ClaudeEvent.toolUse "write_file" Json.null]
    (by intro ev hev; fin_cases hev <;> rfl)
    (by intro ev hev; fin_cases hev <;> simp)
  simpa [deltaTexts] using h

theorem countStopped_append (sid : String) (a b : List Emit) :
    countStopped sid (a ++ b) = countStopped sid a + countStopped sid b := by
  induction a with
  | nil => simp [countStopped]
  | cons e rest ih => cases e <;> (simp [countStopped, ih]; try omega)

theorem handleEvent_no_stopped (gen : Nat → String) (sid : String) (reg : Registry)
    (st : LoopState) (ev : ClaudeEvent) :
    countStopped sid (handleEvent gen sid reg st ev).2.2 = 0 := by
  cases ev <;> simp [handleEvent, countStopped]

theorem processLine_no_stopped (gen : Nat → String) (sid : String) (reg : Registry)
    (st : LoopState) (ln : RawLine) :
    countStopped sid (processLine gen sid reg st ln).2.2 = 0 := by
  cases ln with
  | blank => rfl
  | garbage => rfl
  | json j =>
      cases hp : parse_claude_output j with
      | ok ev => simp [processLine, hp, handleEvent_no_stopped]
      | error e => simp [processLine, hp, countStopped]

theorem runLoop_no_stopped (gen : Nat → String) (sid : String) (reg : Registry)
    (st : LoopState) (lines : List RawLine) :
    countStopped sid (runLoop gen sid reg st lines).2.2 = 0 := by
  induction lines generalizing reg st with
  | nil => rfl
  | cons ln rest ih =>
      simp [runLoop, countStopped_append, processLine_no_stopped, ih]

theorem modify_keys (reg : Registry) (sid : String) (f : CliProcess → CliProcess) :
    (reg.modify sid f).map Prod.fst = reg.map Prod.fst := by
  induction reg with
  | nil => rfl
  | cons kv rest ih =>
      obtain ⟨k, v⟩ := kv
      by_cases hk : k = sid <;> simp [Registry.modify, hk, ih]

theorem handleEvent_keys (gen : Nat → String) (sid : String) (reg : Registry)
    (st : LoopState) (ev : ClaudeEvent) :
    (handleEvent gen sid reg st ev).1.map Prod.fst = reg.map Prod.fst := by
  cases ev <;> simp [handleEvent, modify_keys]

theorem processLine_keys (gen : Nat → String) (sid : String) (reg : Registry)
    (st : LoopState) (ln : RawLine) :
    (processLine gen sid reg st ln).1.map Prod.fst = reg.map Prod.fst := by
  cases ln with
  | blank => rfl
  | garbage => rfl
  | json j =>
      cases hp : parse_claude_output j with
      | ok ev => simp [processLine, hp, handleEvent_keys]
      | error e => simp [processLine, hp]

theorem runLoop_keys (gen : Nat → String) (sid : String) (reg : Registry)
    (st : LoopState) (lines : List RawLine) :
    (runLoop gen sid reg st lines).1.map Prod.fst = reg.map Prod.fst := by
  induction lines generalizing reg st with
  | nil => rfl
  | cons ln rest ih => simp [runLoop, ih, processLine_keys]

/-- C3: when the streaming loop reaches end-of-stream, whatever the stored
status at that moment, the session is removed from the registry —
`is_running` becomes false — and exactly one `stopped` status notification
is emitted, as the final event of the loop's trace. -/
theorem end_of_stream_emits_stopped_once (gen : Nat → String) (sid : String)
    (reg : Registry) (p : CliProcess) (lines : List RawLine)
    (hfind : reg.find sid = some p) (hout : p.stdoutAvail = true)
    (hnd : keysNodup reg) :
    CliManager.is_running (stream_output gen sid reg lines).1 sid = false ∧
    countStopped sid (stream_output gen sid reg lines).2 = 1 ∧
    (stream_output gen sid reg lines).2.getLast? = some (Emit.status sid "stopped") := by
  have hnd' : keysNodup (runLoop gen sid
      (reg.modify sid (fun q => { q with stdoutAvail := false })) ⟨gen 0, "", 1⟩ lines).1 := by
    unfold keysNodup
    rw [runLoop_keys, modify_keys]
    exact hnd
  refine ⟨?_, ?_, ?_⟩ <;>
    simp [stream_output, hfind, hout, CliManager.is_running,
      find_erase_self _ sid hnd', countStopped_append, runLoop_no_stopped,
      countStopped, List.getLast?_append]

/-- Witness for C3: a busy session whose stream carries one `message_stop`
line and then ends. -/
theorem end_of_stream_emits_stopped_once_witness :
    CliManager.is_running
      (stream_output (fun _ => "m2") "s6" [("s6", ⟨true, true, ClaudeStatus.busy⟩)]
        [RawLine.json (Json.obj [("type", Json.str "message_stop")]), RawLine.garbage]).1
      "s6" = false ∧
    countStopped "s6"
      (stream_output (fun _ => "m2") "s6" [("s6", ⟨true, true, ClaudeStatus.busy⟩)]
        [RawLine.json (Json.obj [("type", Json.str "message_stop")]), RawLine.garbage]).2 = 1 ∧
    (stream_output (fun _ => "m2") "s6" [("s6", ⟨true, true, ClaudeStatus.busy⟩)]
        [RawLine.json (Json.obj [("type", Json.str "message_stop")]), RawLine.garbage]).2.getLast? =
      some (Emit.status "s6" "stopped") :=
  end_of_stream_emits_stopped_once (fun _ => "m2") "s6"
    [("s6", ⟨true, true, ClaudeStatus.busy⟩)] ⟨true, true, ClaudeStatus.busy⟩
    [RawLine.json (Json.obj [("type", Json.str "message_stop")]), RawLine.garbage]
    rfl rfl (by simp [keysNodup])

/-- C7: a malformed protocol line is recovered locally — processing it
emits no event or status notification, leaves the registry and the message
accumulator unchanged, and the loop continues with the subsequent lines
exactly as if the malformed line had not been there. -/
theorem malformed_line_skipped (gen : Nat → String) (sid : String) (reg : Registry)
    (st : LoopState) (ln : RawLine) (rest : List RawLine)
    (hbad : lineIsMalformed ln = true) :
    processLine gen sid reg st ln = (reg, st, []) ∧
    runLoop gen sid reg st (ln :: rest) = runLoop gen sid reg st rest := by
  have hpl : processLine gen sid reg st ln = (reg, st, []) := by
    cases ln with
    | blank => simp [lineIsMalformed] at hbad
    | garbage => rfl
    | json j =>
        cases hp : parse_claude_output j with
        | ok ev => simp [lineIsMalformed, hp] at hbad
        | error e => simp [processLine, hp]
  exact ⟨hpl, by simp [runLoop, hpl]⟩

/-- Witness for C7: a line that is not a JSON record, followed by a
`message_stop` line, processed from a registered busy session. -/
theorem malformed_line_skipped_witness :
    processLine (fun _ => "m3") "s7" [("s7", ⟨true, false, ClaudeStatus.busy⟩)]
        ⟨"m3", "partial", 1⟩ (RawLine.json (Json.str "oops")) =
      ([("s7", ⟨true, false, ClaudeStatus.busy⟩)], ⟨"m3", "partial", 1⟩, []) ∧
    runLoop (fun _ => "m3") "s7" [("s7", ⟨true, false, ClaudeStatus.busy⟩)]
        ⟨"m3", "partial", 1⟩
        [RawLine.json (Json.str "oops"),
          RawLine.json (Json.obj [("type", Json.str "message_stop")])] =
      runLoop (fun _ => "m3") "s7" [("s7", ⟨true, false, ClaudeStatus.busy⟩)]
        ⟨"m3", "partial", 1⟩
        [RawLine.json (Json.obj [("type", Json.str "message_stop")])] :=
  malformed_line_skipped (fun _ => "m3") "s7" [("s7", ⟨true, false, ClaudeStatus.busy⟩)]
    ⟨"m3", "partial", 1⟩ (RawLine.json (Json.str "oops"))
    [RawLine.json (Json.obj [("type", Json.str "message_stop")])] rfl

theorem find_mem (reg : Registry) (sid : String) (p : CliProcess)
    (h : reg.find sid = some p) : (sid, p) ∈ reg := by
  induction reg with
  | nil => simp [Registry.find] at h
  | cons kv rest ih =>
      obtain ⟨k, v⟩ := kv
      by_cases hk : k = sid
      · subst hk
        simp [Registry.find] at h
        subst h
        exact List.mem_cons_self _ _
      · simp [Registry.find, hk] at h
        exact List.mem_cons_of_mem _ (ih h)

theorem wf_get_status (reg : Registry) (sid : String) (h : WfReg reg) :
    CliManager.get_status reg sid = ClaudeStatus.ready ∨
    CliManager.get_status reg sid = ClaudeStatus.busy ∨
    CliManager.get_status reg sid = ClaudeStatus.stopped := by
  cases hf : reg.find sid with
  | none => simp [CliManager.get_status, hf]
  | some p =>
      rcases h _ (find_mem reg sid p hf) with hr | hb
      · exact Or.inl (by simp only [CliManager.get_status, hf]; exact hr)
      · exact Or.inr (Or.inl (by simp only [CliManager.get_status, hf]; exact hb))

theorem WfReg_insert (reg : Registry) (sid : String) (p : CliProcess)
    (h : WfReg reg) (hp : statusOk p) : WfReg (reg.insert sid p) := by
  induction reg with
  | nil =>
      intro kv hkv
      simp only [Registry.insert] at hkv
      rcases List.mem_singleton.mp hkv with rfl
      exact hp
  | cons kv0 rest ih =>
      obtain ⟨k, v⟩ := kv0
      have hrest : WfReg rest := fun kv hkv => h kv (List.mem_cons_of_mem _ hkv)
      have hhead : statusOk v := h _ (List.mem_cons_self _ _)
      intro kv hkv
      by_cases hk : k = sid
      · simp only [Registry.insert, if_pos hk] at hkv
        rcases List.mem_cons.mp hkv with rfl | h1
        · exact hp
        · exact hrest _ h1
      · simp only [Registry.insert, if_neg hk] at hkv
        rcases List.mem_cons.mp hkv with rfl | h1
        · exact hhead
        · exact ih hrest _ h1

theorem mem_of_mem_erase (reg : Registry) (sid : String) (kv : String × CliProcess)
    (h : kv ∈ reg.erase sid) : kv ∈ reg := by
  induction reg with
  | nil => simp [Registry.erase] at h
  | cons kv0 rest ih =>
      obtain ⟨k, v⟩ := kv0
      by_cases hk : k = sid
      · simp only [Registry.erase, if_pos hk] at h
        exact List.mem_cons_of_mem _ h
      · simp only [Registry.erase, if_neg hk] at h
        rcases List.mem_cons.mp h with rfl | h1
        · exact List.mem_cons_self _ _
        · exact List.mem_cons_of_mem _ (ih h1)

theorem WfReg_erase (reg : Registry) (sid : String) (h : WfReg reg) :
    WfReg (reg.erase sid) :=
  fun kv hkv => h kv (mem_of_mem_erase reg sid kv hkv)

theorem WfReg_modify (reg : Registry) (sid : String) (f : CliProcess → CliProcess)
    (h : WfReg reg) (hf : ∀ q, statusOk (f q)) : WfReg (reg.modify sid f) := by
  induction reg with
  | nil => intro kv hkv; simp [Registry.modify] at hkv
  | cons kv0 rest ih =>
      obtain ⟨k, v⟩ := kv0
      have hrest : WfReg rest := fun kv hkv => h kv (List.mem_cons_of_mem _ hkv)
      have hhead : statusOk v := h _ (List.mem_cons_self _ _)
      intro kv hkv
      by_cases hk : k = sid
      · simp only [Registry.modify, if_pos hk] at hkv
        rcases List.mem_cons.mp hkv with rfl | h1
        · exact hf v
        · exact hrest _ h1
      · simp only [Registry.modify, if_neg hk] at hkv
        rcases List.mem_cons.mp hkv with rfl | h1
        · exact hhead
        · exact ih hrest _ h1

theorem handleEvent_wf (gen : Nat → String) (sid : String) (reg : Registry)
    (st : LoopState) (ev : ClaudeEvent) (h : WfReg reg) :
    WfReg (handleEvent gen sid reg st ev).1 := by
  cases ev <;> simp only [handleEvent] <;>
    first
      | exact h
      | exact WfReg_modify reg sid _ h (fun q => Or.inl rfl)

theorem processLine_wf (gen : Nat → String) (sid : String) (reg : Registry)
    (st : LoopState) (ln : RawLine) (h : WfReg reg) :
    WfReg (processLine gen sid reg st ln).1 := by
  cases ln with
  | blank => exact h
  | garbage => exact h
  | json j =>
      cases hp : parse_claude_output j with
      | ok ev => simpa [processLine, hp] using handleEvent_wf gen sid reg st ev h
      | error e => simpa [processLine, hp] using h

theorem wf_stepOp (gen : Nat → String) (sid : String) (s : Registry × LoopState)
    (op : SessionOp) (h : WfReg s.1) : WfReg (stepOp gen sid s op).1 := by
  obtain ⟨reg, st⟩ := s
  cases op with
  | startOp ctx io =>
      simp only [stepOp]
      cases hf : (reg.find sid).isSome <;>
        cases he : io.execFound <;> cases hs2 : io.spawnOk <;>
        cases hc : io.ctxWriteOk <;> cases hn : io.newlineWriteOk <;> cases ctx <;>
        simp [CliManager.start, hf, he, hs2, hc, hn] <;>
        first
          | exact h
          | exact WfReg_insert reg sid _ h (Or.inl rfl)
  | sendOp content io =>
      simp only [stepOp]
      cases hf : reg.find sid with
      | none => simpa [CliManager.send_message, hf] using h
      | some p =>
          cases hs2 : p.stdinAvail <;> cases w1 : io.writeContentOk <;>
            cases w2 : io.writeNewlineOk <;> cases w3 : io.flushOk <;>
            simp [CliManager.send_message, hf, hs2, w1, w2, w3] <;>
            first
              | exact h
              | exact WfReg_modify reg sid _ h (fun q => Or.inr rfl)
  | stopOp =>
      simp only [stepOp]
      cases hf : reg.find sid with
      | none => simpa [CliManager.stop, hf] using h
      | some p => simpa [CliManager.stop, hf] using WfReg_erase reg sid h
  | cancelOp => exact h
  | lineOp ln => exact processLine_wf gen sid reg st ln h
  | eosOp => exact WfReg_erase reg sid h

theorem allowedEdge_of_states (a b : ClaudeStatus)
    (ha : a = ClaudeStatus.ready ∨ a = ClaudeStatus.busy)
    (hb : b = ClaudeStatus.ready ∨ b = ClaudeStatus.busy ∨ b = ClaudeStatus.stopped) :
    allowedEdge a b = true := by
  rcases ha with rfl | rfl <;> rcases hb with rfl | rfl | rfl <;> rfl

theorem untilStopped_head (x : ClaudeStatus) (tr : List ClaudeStatus) :
    (untilStopped (x :: tr)).head? = some x := by
  by_cases hx : x = ClaudeStatus.stopped <;> simp [untilStopped, hx]

theorem statusTrace_head (gen : Nat → String) (sid : String)
    (s : Registry × LoopState) (ops : List SessionOp) :
    ∃ tr, statusTrace gen sid s ops = CliManager.get_status s.1 sid :: tr := by
  cases ops <;> exact ⟨_, rfl⟩

/-- In any run from a well-formed registry, consecutive statuses within the
session's lifetime (up to the first Stopped) follow the allowed edges. -/
theorem chain_statusTrace (gen : Nat → String) (sid : String) (ops : List SessionOp)
    (s : Registry × LoopState) (h : WfReg s.1) :
    List.Chain' (fun a b => allowedEdge a b = true)
      (untilStopped (statusTrace gen sid s ops)) := by
  induction ops generalizing s with
  | nil =>
      by_cases h0 : CliManager.get_status s.1 sid = ClaudeStatus.stopped <;>
        simp [statusTrace, untilStopped, h0]
  | cons op ops ih =>
      have hwf' := wf_stepOp gen sid s op h
      by_cases h0 : CliManager.get_status s.1 sid = ClaudeStatus.stopped
      · simp [statusTrace, untilStopped, h0]
      · rw [statusTrace, untilStopped, if_neg h0]
        refine List.chain'_cons'.mpr ⟨?_, ih (stepOp gen sid s op) hwf'⟩
        intro y hy
        obtain ⟨tr, htr⟩ := statusTrace_head gen sid (stepOp gen sid s op) ops
        rw [htr, untilStopped_head] at hy
        cases hy
        have ha : CliManager.get_status s.1 sid = ClaudeStatus.ready ∨
            CliManager.get_status s.1 sid = ClaudeStatus.busy := by
          rcases wf_get_status s.1 sid h with h1 | h1 | h1
          · exact Or.inl h1
          · exact Or.inr h1
          · exact absurd h1 h0
        exact allowedEdge_of_states _ _ ha (wf_get_status _ sid hwf')

/-- C6: over any sequence of session operations following a successful
fresh `start`, the session's observable status moves only along the §4.4
edges — Starting → Ready at registration, Ready → Busy on send,
Busy → Ready on MessageStop, any state → Stopped on stop or end-of-stream —
with the lifetime trace cut at its terminal Stopped; no operation produces
a transition outside these edges. -/
theorem status_transitions_follow_state_machine (gen : Nat → String) (sid : String)
    (reg : Registry) (st : LoopState) (ctx : Option String) (io : StartIO)
    (ops : List SessionOp)
    (habs : reg.find sid = none) (hwf : WfReg reg)
    (hok : (CliManager.start reg sid ctx io).result = Except.ok ()) :
    List.Chain' (fun a b => allowedEdge a b = true)
      (ClaudeStatus.starting ::
        untilStopped (statusTrace gen sid ((CliManager.start reg sid ctx io).reg, st) ops)) := by
  have hreg1 : (CliManager.start reg sid ctx io).reg =
      reg.insert sid ⟨true, true, ClaudeStatus.ready⟩ := by
    cases he : io.execFound <;> cases hs2 : io.spawnOk <;> cases hc : io.ctxWriteOk <;>
      cases hn : io.newlineWriteOk <;> cases ctx <;>
      simp_all [CliManager.start, habs]
  have hwf1 : WfReg (CliManager.start reg sid ctx io).reg := by
    rw [hreg1]
    exact WfReg_insert reg sid _ hwf (Or.inl rfl)
  have hhead : CliManager.get_status (CliManager.start reg sid ctx io).reg sid =
      ClaudeStatus.ready := by
    rw [hreg1]
    simp [CliManager.get_status, find_insert_self]
  refine List.chain'_cons'.mpr
    ⟨?_, chain_statusTrace gen sid ops ((CliManager.start reg sid ctx io).reg, st) hwf1⟩
  intro y hy
  obtain ⟨tr, htr⟩ :=
    statusTrace_head gen sid ((CliManager.start reg sid ctx io).reg, st) ops
  rw [htr, untilStopped_head] at hy
  cases hy
  simp only at hhead ⊢
  rw [hhead]
  rfl

/-- Witness for C6: a fresh start, a send, a MessageStop line, then
end-of-stream. -/
theorem status_transitions_follow_state_machine_witness :
    List.Chain' (fun a b => allowedEdge a b = true)
      (ClaudeStatus.starting ::
        untilStopped (statusTrace (fun _ => "m4") "s8"
          ((CliManager.start [] "s8" none ⟨true, true, true, true⟩).reg, ⟨"m4", "", 1⟩)
          [SessionOp.sendOp "hello" ⟨true, true, true⟩,
            SessionOp.lineOp (RawLine.json (Json.obj [("type", Json.str "message_stop")])),
            SessionOp.eosOp])) :=
  status_transitions_follow_state_machine (fun _ => "m4") "s8" [] ⟨"m4", "", 1⟩ none
    ⟨true, true, true, true⟩
    [SessionOp.sendOp "hello" ⟨true, true, true⟩,
      SessionOp.lineOp (RawLine.json (Json.obj [("type", Json.str "message_stop")])),
      SessionOp.eosOp]
    rfl (by intro kv hkv; simp at hkv) rfl

end Wingman
